import Mathlib

/-!
Shallow embedding of `WebCore::BaseTile`
(src/WebCore/platform/graphics/android/BaseTile.cpp).

A `BaseTile` holds grid coordinates, an optional reference to a pooled
texture (`m_texture`, a pointer in the source, modelled as `Option Nat`
where the `Nat` stands for the texture's identity), a scale, a dirty
flag and two generation counters.  The external collaborators
(`TilesManager`, `BackedDoubleBufferedTexture`, the rasterizer) are
modelled by explicit parameters: the pool's answer to
`getAvailableTexture` is an argument of `reserveTexture`, the texture's
`owner()` / `usedLevel()` / `consumerLock()` results are read from a
`TexEnv`, and the generation stamp returned by
`paintBaseLayerContent` is an argument of `paintBitmap`.

The C++ `float m_scale` is modelled as `Rat`: the tile logic only
stores it and compares it for equality, no floating-point arithmetic
influences the tile state.  Pointer identity of the tile itself
(`this`, compared against `texture->owner()`) is modelled by the
immutable field `tileId`.
-/

/-- Environment supplied by the texture/pool collaborators:
`owner tex` is the tile id recorded as the texture's owner (the result
of `texture->owner()`, `none` when no owner), `usedLevel tex` is
`texture->usedLevel()`, and `consumerSurface tex` is the
`TextureInfo*` returned by `texture->consumerLock()` (`none` models a
null `TextureInfo`). -/
structure TexEnv where
  owner : Nat → Option Nat
  usedLevel : Nat → Int
  consumerSurface : Nat → Option Nat

/-- The mutable state of a `BaseTile`, plus its immutable identity
(`tileId` models the object's address, `m_x`/`m_y` the grid
coordinates fixed at construction). -/
structure BaseTile where
  tileId : Nat
  m_x : Int
  m_y : Int
  m_texture : Option Nat
  m_scale : Rat
  m_dirty : Bool
  m_lastDirtyPicture : Int
  m_lastPaintedPicture : Int
deriving DecidableEq

/-- `BaseTile::BaseTile(page, x, y)`: texture null, scale 1, dirty
true, both generation counters 0. -/
def newBaseTile (tileId : Nat) (x y : Int) : BaseTile :=
  { tileId := tileId
    m_x := x
    m_y := y
    m_texture := none
    m_scale := 1
    m_dirty := true
    m_lastDirtyPicture := 0
    m_lastPaintedPicture := 0 }

/-- `BaseTile::reserveTexture()`.  `texture` is the value returned by
`TilesManager::instance()->getAvailableTexture(this)`.  The source
resets `m_lastPaintedPicture` and `m_dirty` when `m_texture != texture`
and then assigns `m_texture = texture`; both branches below end with
the assignment, as in the source. -/
def BaseTile.reserveTexture (t : BaseTile) (texture : Option Nat) : BaseTile :=
  if t.m_texture ≠ texture then
    { t with m_lastPaintedPicture := 0, m_dirty := true, m_texture := texture }
  else
    { t with m_texture := texture }

/-- `BaseTile::removeTexture()`: clears the texture reference. -/
def BaseTile.removeTexture (t : BaseTile) : BaseTile :=
  { t with m_texture := none }

/-- `BaseTile::setScale(scale)`: sets dirty when the scale changes,
then stores the new scale. -/
def BaseTile.setScale (t : BaseTile) (scale : Rat) : BaseTile :=
  if t.m_scale ≠ scale then
    { t with m_dirty := true, m_scale := scale }
  else
    { t with m_scale := scale }

/-- `BaseTile::markAsDirty(pictureCount)`: stores `pictureCount` into
`m_lastDirtyPicture` unconditionally, then sets `m_dirty` when
`m_lastPaintedPicture < m_lastDirtyPicture`.  The source assigns the
field first and compares afterwards; since the compared value is the
freshly stored `pictureCount`, the guard below is the same test. -/
def BaseTile.markAsDirty (t : BaseTile) (pictureCount : Int) : BaseTile :=
  if t.m_lastPaintedPicture < pictureCount then
    { t with m_lastDirtyPicture := pictureCount, m_dirty := true }
  else
    { t with m_lastDirtyPicture := pictureCount }

/-- `BaseTile::isDirty()`. -/
def BaseTile.isDirty (t : BaseTile) : Bool :=
  t.m_dirty

/-- `BaseTile::isTileReady()`: false without a texture, false when the
texture's recorded owner is not this tile, otherwise the negation of
the dirty flag. -/
def BaseTile.isTileReady (env : TexEnv) (t : BaseTile) : Bool :=
  match t.m_texture with
  | none => false
  | some tex =>
    if env.owner tex ≠ some t.tileId then false
    else !t.m_dirty

/-- `BaseTile::draw(transparency, rect)`.  The first component is the
tile state after the call (the source writes no tile field), the
second records whether `drawQuad` was invoked.  The quad is submitted
exactly when a texture is referenced, `consumerLock` yields a
`TextureInfo`, and `bool isTexturePainted = m_lastPaintedPicture`
converts a non-zero generation to true. -/
def BaseTile.draw (env : TexEnv) (t : BaseTile) : BaseTile × Bool :=
  match t.m_texture with
  | none => (t, false)
  | some tex =>
    match env.consumerSurface tex with
    | none => (t, false)
    | some _ => (t, t.m_lastPaintedPicture ≠ 0)

/-- The final atomic block of `BaseTile::paintBitmap()`: store the
rasterizer's generation stamp into `m_lastPaintedPicture`, then clear
`m_dirty` when `m_lastPaintedPicture >= m_lastDirtyPicture`.  As with
`markAsDirty`, the source assigns first and compares the freshly
stored value, so the guard compares `pictureCount` directly. -/
def BaseTile.paintCommit (t : BaseTile) (pictureCount : Int) : BaseTile :=
  if t.m_lastDirtyPicture ≤ pictureCount then
    { t with m_lastPaintedPicture := pictureCount, m_dirty := false }
  else
    { t with m_lastPaintedPicture := pictureCount }

/-- `BaseTile::paintBitmap()` run with no interleaved consumer-thread
activity: snapshot `m_dirty` / `m_texture`, return unchanged when not
dirty or no texture, return unchanged when the post-`producerLock`
revalidation fails (`texture->owner() != this || texture->usedLevel() > 1`),
otherwise rasterize (the stamp it reports is `pictureCount`) and
commit. -/
def BaseTile.paintBitmap (env : TexEnv) (t : BaseTile) (pictureCount : Int) : BaseTile :=
  match t.m_texture with
  | none => t
  | some tex =>
    if !t.m_dirty then t
    else if env.owner tex ≠ some t.tileId ∨ env.usedLevel tex > 1 then t
    else BaseTile.paintCommit t pictureCount

/-- `BaseTile::paintBitmap()` with concurrent `markAsDirty` calls.
`mid` lists the generations of the `markAsDirty` calls that land
between the atomic snapshot and the final atomic commit.  The
snapshot (`m_dirty`, `m_texture`) and the ownership revalidation read
the pre-`mid` state — `markAsDirty` touches neither `m_texture` nor
the collaborator-side owner — while the commit reads the
`m_lastDirtyPicture` left by the interleaved calls. -/
def BaseTile.paintBitmapMid (env : TexEnv) (t : BaseTile) (pictureCount : Int)
    (mid : List Int) : BaseTile :=
  match t.m_texture with
  | none => List.foldl BaseTile.markAsDirty t mid
  | some tex =>
    if !t.m_dirty then List.foldl BaseTile.markAsDirty t mid
    else if env.owner tex ≠ some t.tileId ∨ env.usedLevel tex > 1 then
      List.foldl BaseTile.markAsDirty t mid
    else BaseTile.paintCommit (List.foldl BaseTile.markAsDirty t mid) pictureCount

/-- The tile operations of the sequential model (the `pictureCount`
of a paint is the stamp the rasterizer reports, the `TexEnv` the
collaborator state observed during that paint). -/
inductive Op where
  | reserveTexture (texture : Option Nat)
  | removeTexture
  | setScale (scale : Rat)
  | markAsDirty (pictureCount : Int)
  | paintBitmap (env : TexEnv) (pictureCount : Int)

/-- One operation applied to a tile. -/
def step (t : BaseTile) : Op → BaseTile
  | Op.reserveTexture tex => BaseTile.reserveTexture t tex
  | Op.removeTexture => BaseTile.removeTexture t
  | Op.setScale s => BaseTile.setScale t s
  | Op.markAsDirty g => BaseTile.markAsDirty t g
  | Op.paintBitmap env g => BaseTile.paintBitmap env t g

/-- A sequence of operations applied to a tile. -/
def run (t : BaseTile) (ops : List Op) : BaseTile :=
  List.foldl step t ops

/-- The dirty invariant of the spec: a tile whose last painted
generation is older than its last invalidation generation is flagged
dirty. -/
def dirtyInv (t : BaseTile) : Prop :=
  t.m_lastPaintedPicture < t.m_lastDirtyPicture → t.m_dirty = true

/-! ### Helper lemmas about `markAsDirty` -/

/-- `markAsDirty` always stores its argument into `m_lastDirtyPicture`. -/
lemma markAsDirty_lastDirty (t : BaseTile) (g : Int) :
    (BaseTile.markAsDirty t g).m_lastDirtyPicture = g := by
  unfold BaseTile.markAsDirty
  split <;> rfl

/-- `markAsDirty` never touches `m_lastPaintedPicture`. -/
lemma markAsDirty_painted (t : BaseTile) (g : Int) :
    (BaseTile.markAsDirty t g).m_lastPaintedPicture = t.m_lastPaintedPicture := by
  unfold BaseTile.markAsDirty
  split <;> rfl

/-- `markAsDirty` never clears the dirty flag. -/
lemma markAsDirty_dirty_of_dirty (t : BaseTile) (g : Int) (h : t.m_dirty = true) :
    (BaseTile.markAsDirty t g).m_dirty = true := by
  unfold BaseTile.markAsDirty
  split
  · rfl
  · exact h

/-- A fold of `markAsDirty` calls never touches `m_lastPaintedPicture`. -/
lemma foldl_markAsDirty_painted (gs : List Int) (t : BaseTile) :
    (List.foldl BaseTile.markAsDirty t gs).m_lastPaintedPicture = t.m_lastPaintedPicture := by
  induction gs generalizing t with
  | nil => rfl
  | cons g gs ih => exact (ih (BaseTile.markAsDirty t g)).trans (markAsDirty_painted t g)

/-- A fold of `markAsDirty` calls never clears the dirty flag. -/
lemma foldl_markAsDirty_dirty_of_dirty (gs : List Int) (t : BaseTile) (h : t.m_dirty = true) :
    (List.foldl BaseTile.markAsDirty t gs).m_dirty = true := by
  induction gs generalizing t with
  | nil => exact h
  | cons g gs ih => exact ih _ (markAsDirty_dirty_of_dirty t g h)

/-- After a non-empty fold of `markAsDirty` calls, `m_lastDirtyPicture`
is the generation of the last call (last write wins). -/
lemma foldl_markAsDirty_getLast (gs : List Int) (gl : Int) (h : gs.getLast? = some gl)
    (t : BaseTile) :
    (List.foldl BaseTile.markAsDirty t gs).m_lastDirtyPicture = gl := by
  induction gs generalizing t with
  | nil => simp at h
  | cons g gs ih =>
    cases gs with
    | nil =>
      simp at h
      subst h
      exact markAsDirty_lastDirty t g
    | cons g2 gs2 =>
      have h2 : (g2 :: gs2).getLast? = some gl := by
        simpa using h
      exact ih h2 (BaseTile.markAsDirty t g)

/-! ### Claim theorems -/

/-- Claim C3: `markAsDirty(g)` stores `g` into `m_lastDirtyPicture`
unconditionally (last write wins), sets the dirty flag exactly when
`m_lastPaintedPicture < g` (keeping it when it was already set, never
clearing it), and leaves every other tile field unchanged. -/
theorem markAsDirty_functional_spec (t : BaseTile) (g : Int) :
    (BaseTile.markAsDirty t g).m_lastDirtyPicture = g ∧
    (BaseTile.markAsDirty t g).m_dirty =
      (if t.m_lastPaintedPicture < g then true else t.m_dirty) ∧
    (t.m_dirty = true → (BaseTile.markAsDirty t g).m_dirty = true) ∧
    (BaseTile.markAsDirty t g).m_texture = t.m_texture ∧
    (BaseTile.markAsDirty t g).m_scale = t.m_scale ∧
    (BaseTile.markAsDirty t g).m_lastPaintedPicture = t.m_lastPaintedPicture ∧
    (BaseTile.markAsDirty t g).tileId = t.tileId ∧
    (BaseTile.markAsDirty t g).m_x = t.m_x ∧
    (BaseTile.markAsDirty t g).m_y = t.m_y := by
  unfold BaseTile.markAsDirty
  split <;> simp_all

/-- Witness for C3 at a concrete input. -/
theorem markAsDirty_functional_spec_witness :
    (BaseTile.markAsDirty (newBaseTile 0 0 0) 5).m_lastDirtyPicture = 5 ∧
    (BaseTile.markAsDirty (newBaseTile 0 0 0) 5).m_dirty = true := by
  have h := markAsDirty_functional_spec (newBaseTile 0 0 0) 5
  exact ⟨h.1, h.2.2.1 (by decide)⟩

/-- Claim C5: `reserveTexture` always stores the pool's answer into
`m_texture`; when that answer differs from the texture currently held
(the null-to-non-null case included) it resets `m_lastPaintedPicture`
to 0 and forces the dirty flag, so `isDirty()` is true and
`isTileReady()` is false afterwards whatever the collaborator state;
when the pool returns the same texture instance, the dirty flag and
both generation counters are untouched. -/
theorem reserveTexture_functional_spec (t : BaseTile) (texture : Option Nat) :
    (BaseTile.reserveTexture t texture).m_texture = texture ∧
    (t.m_texture ≠ texture →
      (BaseTile.reserveTexture t texture).m_lastPaintedPicture = 0 ∧
      (BaseTile.reserveTexture t texture).m_dirty = true ∧
      BaseTile.isDirty (BaseTile.reserveTexture t texture) = true ∧
      ∀ env : TexEnv, BaseTile.isTileReady env (BaseTile.reserveTexture t texture) = false) ∧
    (t.m_texture = texture →
      (BaseTile.reserveTexture t texture).m_dirty = t.m_dirty ∧
      (BaseTile.reserveTexture t texture).m_lastDirtyPicture = t.m_lastDirtyPicture ∧
      (BaseTile.reserveTexture t texture).m_lastPaintedPicture = t.m_lastPaintedPicture) := by
  refine ⟨?_, ?_, ?_⟩
  · unfold BaseTile.reserveTexture
    split <;> rfl
  · intro hne
    unfold BaseTile.reserveTexture
    rw [if_pos hne]
    refine ⟨rfl, rfl, rfl, ?_⟩
    intro env
    unfold BaseTile.isTileReady
    cases texture with
    | none => rfl
    | some tex => simp
  · intro heq
    unfold BaseTile.reserveTexture
    rw [if_neg (fun h => h heq)]
    exact ⟨rfl, rfl, rfl⟩

/-- Witness for C5 at a concrete input. -/
theorem reserveTexture_functional_spec_witness :
    (BaseTile.reserveTexture (newBaseTile 0 0 0) (some 1)).m_dirty = true ∧
    BaseTile.isTileReady ⟨fun _ => some 0, fun _ => 0, fun _ => some 0⟩
      (BaseTile.reserveTexture (newBaseTile 0 0 0) (some 1)) = false := by
  have h := (reserveTexture_functional_spec (newBaseTile 0 0 0) (some 1)).2.1 (by decide)
  exact ⟨h.2.1, h.2.2.2 _⟩

/-- Claim C7: `isTileReady()` is false with no texture, false when the
texture's recorded owner is not this tile regardless of the dirty
flag, and otherwise the negation of the dirty flag.  It is a pure
query: the source performs no write, which the embedding reflects by
returning only a `Bool`. -/
theorem isTileReady_functional_spec (env : TexEnv) (t : BaseTile) :
    (t.m_texture = none → BaseTile.isTileReady env t = false) ∧
    (∀ tex, t.m_texture = some tex → env.owner tex ≠ some t.tileId →
      BaseTile.isTileReady env t = false) ∧
    (∀ tex, t.m_texture = some tex → env.owner tex = some t.tileId →
      BaseTile.isTileReady env t = !t.m_dirty) := by
  refine ⟨?_, ?_, ?_⟩
  · intro h
    unfold BaseTile.isTileReady
    rw [h]
  · intro tex htex hown
    unfold BaseTile.isTileReady
    rw [htex]
    simp [hown]
  · intro tex htex hown
    unfold BaseTile.isTileReady
    rw [htex]
    simp [hown]

/-- Witness for C7 at a concrete input: owner mismatch forces false
even though the tile is clean. -/
theorem isTileReady_functional_spec_witness :
    BaseTile.isTileReady ⟨fun _ => some 7, fun _ => 0, fun _ => some 0⟩
      { newBaseTile 0 0 0 with m_texture := some 0, m_dirty := false } = false := by
  exact (isTileReady_functional_spec ⟨fun _ => some 7, fun _ => 0, fun _ => some 0⟩
    { newBaseTile 0 0 0 with m_texture := some 0, m_dirty := false }).2.1
    0 rfl (by decide)

/-- Claim C6: `paintBitmap` leaves the tile state entirely unchanged
on every non-painting exit: when the atomic snapshot shows a clean
tile or a null texture it returns at once, and when the
post-`producerLock` revalidation fails (owner is another tile, or
used level above 1) it returns without recording a painted generation,
so a dirty tile stays dirty. -/
theorem paintBitmap_noop_spec (env : TexEnv) (t : BaseTile) (g : Int) :
    (t.m_dirty = false → BaseTile.paintBitmap env t g = t) ∧
    (t.m_texture = none → BaseTile.paintBitmap env t g = t) ∧
    (∀ tex, t.m_texture = some tex →
      (env.owner tex ≠ some t.tileId ∨ env.usedLevel tex > 1) →
      BaseTile.paintBitmap env t g = t ∧
      (t.m_dirty = true → (BaseTile.paintBitmap env t g).m_dirty = true)) := by
  refine ⟨?_, ?_, ?_⟩
  · intro hd
    unfold BaseTile.paintBitmap
    cases htex : t.m_texture with
    | none => rfl
    | some tex => simp [hd]
  · intro htex
    unfold BaseTile.paintBitmap
    rw [htex]
  · intro tex htex hcheck
    have hnoop : BaseTile.paintBitmap env t g = t := by
      unfold BaseTile.paintBitmap
      rw [htex]
      by_cases hd : t.m_dirty
      · simp [hd, hcheck]
      · simp [hd]
    exact ⟨hnoop, fun hd => by rw [hnoop]; exact hd⟩

/-- Witness for C6 at a concrete input: revalidation fails because the
texture's owner is another tile; nothing changes and the tile stays
dirty. -/
theorem paintBitmap_noop_spec_witness :
    BaseTile.paintBitmap ⟨fun _ => some 9, fun _ => 0, fun _ => none⟩
      { newBaseTile 0 0 0 with m_texture := some 0 } 5 =
      { newBaseTile 0 0 0 with m_texture := some 0 } ∧
    (BaseTile.paintBitmap ⟨fun _ => some 9, fun _ => 0, fun _ => none⟩
      { newBaseTile 0 0 0 with m_texture := some 0 } 5).m_dirty = true := by
  have h := (paintBitmap_noop_spec ⟨fun _ => some 9, fun _ => 0, fun _ => none⟩
    { newBaseTile 0 0 0 with m_texture := some 0 } 5).2.2 0 rfl (by decide)
  exact ⟨h.1, h.2 rfl⟩

/-- Claim C8: `draw` writes no tile field; it submits no quad when the
texture reference is null, none when `consumerLock` yields no surface,
none while `m_lastPaintedPicture` is still the initial 0; and when a
texture and a surface are both present, a quad is submitted exactly
when `m_lastPaintedPicture` is non-zero. -/
theorem draw_functional_spec (env : TexEnv) (t : BaseTile) :
    (BaseTile.draw env t).1 = t ∧
    (t.m_texture = none → (BaseTile.draw env t).2 = false) ∧
    (∀ tex, t.m_texture = some tex → env.consumerSurface tex = none →
      (BaseTile.draw env t).2 = false) ∧
    (t.m_lastPaintedPicture = 0 → (BaseTile.draw env t).2 = false) ∧
    (∀ tex surf, t.m_texture = some tex → env.consumerSurface tex = some surf →
      ((BaseTile.draw env t).2 = true ↔ t.m_lastPaintedPicture ≠ 0)) := by
  refine ⟨?_, ?_, ?_, ?_, ?_⟩
  · cases htex : t.m_texture with
    | none => simp [BaseTile.draw, htex]
    | some tex =>
      cases hsurf : env.consumerSurface tex with
      | none => simp [BaseTile.draw, htex, hsurf]
      | some surf => simp [BaseTile.draw, htex, hsurf]
  · intro htex
    simp [BaseTile.draw, htex]
  · intro tex htex hsurf
    simp [BaseTile.draw, htex, hsurf]
  · intro hp
    cases htex : t.m_texture with
    | none => simp [BaseTile.draw, htex]
    | some tex =>
      cases hsurf : env.consumerSurface tex with
      | none => simp [BaseTile.draw, htex, hsurf]
      | some surf => simp [BaseTile.draw, htex, hsurf, hp]
  · intro tex surf htex hsurf
    simp [BaseTile.draw, htex, hsurf]

/-- Witness for C8 at a concrete input: painted tile with a surface
available submits a quad; the tile state is untouched. -/
theorem draw_functional_spec_witness :
    (BaseTile.draw ⟨fun _ => some 0, fun _ => 0, fun _ => some 3⟩
      { newBaseTile 0 0 0 with m_texture := some 0, m_lastPaintedPicture := 4 }).2 = true ∧
    (BaseTile.draw ⟨fun _ => some 0, fun _ => 0, fun _ => some 3⟩
      { newBaseTile 0 0 0 with m_texture := some 0, m_lastPaintedPicture := 4 }).1 =
      { newBaseTile 0 0 0 with m_texture := some 0, m_lastPaintedPicture := 4 } := by
  have h := draw_functional_spec ⟨fun _ => some 0, fun _ => 0, fun _ => some 3⟩
    { newBaseTile 0 0 0 with m_texture := some 0, m_lastPaintedPicture := 4 }
  exact ⟨(h.2.2.2.2 0 3 rfl rfl).mpr (by decide), h.1⟩

/-- Claim C10: a freshly constructed tile has dirty true, both
generation counters 0, scale 1 and a null texture; before any other
operation `isDirty()` is true, `isTileReady()` is false, `draw()`
changes nothing and submits nothing, and `paintBitmap()` is a no-op
(dirty, but no texture). -/
theorem newBaseTile_initial_spec (tileId : Nat) (x y : Int) (env : TexEnv) (g : Int) :
    (newBaseTile tileId x y).m_dirty = true ∧
    (newBaseTile tileId x y).m_lastDirtyPicture = 0 ∧
    (newBaseTile tileId x y).m_lastPaintedPicture = 0 ∧
    (newBaseTile tileId x y).m_scale = 1 ∧
    (newBaseTile tileId x y).m_texture = none ∧
    BaseTile.isDirty (newBaseTile tileId x y) = true ∧
    BaseTile.isTileReady env (newBaseTile tileId x y) = false ∧
    BaseTile.draw env (newBaseTile tileId x y) = (newBaseTile tileId x y, false) ∧
    BaseTile.paintBitmap env (newBaseTile tileId x y) g = newBaseTile tileId x y :=
  ⟨rfl, rfl, rfl, rfl, rfl, rfl, rfl, rfl, rfl⟩

/-! ### The dirty invariant (C1) -/

/-- `paintBitmap` either exits without touching the tile or, from a
dirty snapshot, performs the final commit. -/
lemma paintBitmap_cases (env : TexEnv) (t : BaseTile) (g : Int) :
    BaseTile.paintBitmap env t g = t ∨
      (t.m_dirty = true ∧ BaseTile.paintBitmap env t g = BaseTile.paintCommit t g) := by
  cases htex : t.m_texture with
  | none =>
    left
    simp [BaseTile.paintBitmap, htex]
  | some tex =>
    by_cases hd : t.m_dirty = true
    · by_cases hch : env.owner tex ≠ some t.tileId ∨ env.usedLevel tex > 1
      · left
        simp [BaseTile.paintBitmap, htex, hd, hch]
      · right
        exact ⟨hd, by simp [BaseTile.paintBitmap, htex, hd, hch]⟩
    · left
      have hd2 : t.m_dirty = false := by
        revert hd
        cases t.m_dirty <;> simp
      simp [BaseTile.paintBitmap, htex, hd2]

/-- Each operation preserves the dirty invariant. -/
lemma step_dirtyInv (t : BaseTile) (op : Op) (h : dirtyInv t) : dirtyInv (step t op) := by
  cases op with
  | reserveTexture tex =>
    show dirtyInv (BaseTile.reserveTexture t tex)
    unfold BaseTile.reserveTexture
    split
    · intro _
      rfl
    · exact h
  | removeTexture => exact h
  | setScale s =>
    show dirtyInv (BaseTile.setScale t s)
    unfold BaseTile.setScale
    split
    · intro _
      rfl
    · exact h
  | markAsDirty g =>
    show dirtyInv (BaseTile.markAsDirty t g)
    unfold BaseTile.markAsDirty
    split
    · intro _
      rfl
    · rename_i hng
      intro hc
      exact absurd hc hng
  | paintBitmap env g =>
    show dirtyInv (BaseTile.paintBitmap env t g)
    rcases paintBitmap_cases env t g with heq | ⟨hd, heq⟩
    · rw [heq]
      exact h
    · rw [heq]
      unfold BaseTile.paintCommit
      split
      · rename_i hle
        intro hc
        have hc2 : g < t.m_lastDirtyPicture := hc
        exact absurd hc2 (not_lt.mpr hle)
      · intro _
        exact hd

/-- The dirty invariant is preserved along any run. -/
lemma run_dirtyInv (ops : List Op) (t : BaseTile) (h : dirtyInv t) : dirtyInv (run t ops) := by
  induction ops generalizing t with
  | nil => exact h
  | cons op ops ih => exact ih (step t op) (step_dirtyInv t op h)

/-- Claim C1: in every state reachable from a freshly constructed tile
by reserveTexture / removeTexture / setScale / markAsDirty /
paintBitmap run sequentially, `m_lastPaintedPicture < m_lastDirtyPicture`
implies the dirty flag; the flag can additionally be set while the
generations already agree — the fresh tile itself is such a reachable
state (conservative invalidation). -/
theorem dirty_generation_invariant :
    (∀ (tileId : Nat) (x y : Int) (ops : List Op),
      dirtyInv (run (newBaseTile tileId x y) ops)) ∧
    (BaseTile.isDirty (run (newBaseTile 0 0 0) []) = true ∧
      (run (newBaseTile 0 0 0) []).m_lastDirtyPicture ≤
        (run (newBaseTile 0 0 0) []).m_lastPaintedPicture) := by
  constructor
  · intro tileId x y ops
    apply run_dirtyInv
    intro _
    rfl
  · exact ⟨rfl, by decide⟩

/-- Witness for C1 at a concrete input. -/
theorem dirty_generation_invariant_witness :
    (run (newBaseTile 0 0 0) [Op.markAsDirty 5]).m_dirty = true := by
  have h := dirty_generation_invariant.1 0 0 0 [Op.markAsDirty 5]
  exact h (by decide)

/-! ### markAsDirty-only sequences (C4) -/

/-- From a clean tile, a fold of `markAsDirty` calls sets the dirty
flag exactly when some generation exceeds the (unchanged)
`m_lastPaintedPicture`. -/
lemma foldl_markAsDirty_dirty_iff (gs : List Int) (t : BaseTile) (h : t.m_dirty = false) :
    (List.foldl BaseTile.markAsDirty t gs).m_dirty = true ↔
      ∃ g ∈ gs, t.m_lastPaintedPicture < g := by
  induction gs generalizing t with
  | nil => simp [h]
  | cons g gs ih =>
    rw [List.foldl_cons]
    by_cases hg : t.m_lastPaintedPicture < g
    · constructor
      · intro _
        exact ⟨g, List.mem_cons_self g gs, hg⟩
      · intro _
        refine foldl_markAsDirty_dirty_of_dirty gs _ ?_
        unfold BaseTile.markAsDirty
        rw [if_pos hg]
    · have hd2 : (BaseTile.markAsDirty t g).m_dirty = false := by
        unfold BaseTile.markAsDirty
        rw [if_neg hg]
        exact h
      rw [ih (BaseTile.markAsDirty t g) hd2]
      simp only [markAsDirty_painted, List.mem_cons]
      constructor
      · rintro ⟨g2, hmem, hlt⟩
        exact ⟨g2, Or.inr hmem, hlt⟩
      · rintro ⟨g2, hmem, hlt⟩
        cases hmem with
        | inl heq =>
          subst heq
          exact absurd hlt hg
        | inr hmem => exact ⟨g2, hmem, hlt⟩

/-- Claim C4 (amended): under `markAsDirty`-only sequences from a
freshly constructed tile, `m_lastPaintedPicture` stays 0 but
`isDirty()` is always true — the constructor already set the dirty
flag and `markAsDirty` never clears it, so the claimed equivalence
holds only from a clean state: starting from any tile with the dirty
flag clear, `isDirty()` becomes true exactly when some generation
(equivalently the maximum) seen exceeds `m_lastPaintedPicture`. -/
theorem markAsDirty_sequences_spec :
    (∀ (tileId : Nat) (x y : Int) (gs : List Int),
      (List.foldl BaseTile.markAsDirty (newBaseTile tileId x y) gs).m_lastPaintedPicture = 0 ∧
      BaseTile.isDirty (List.foldl BaseTile.markAsDirty (newBaseTile tileId x y) gs) = true) ∧
    (∀ (t : BaseTile) (gs : List Int), t.m_dirty = false →
      (BaseTile.isDirty (List.foldl BaseTile.markAsDirty t gs) = true ↔
        ∃ g ∈ gs, t.m_lastPaintedPicture < g)) := by
  constructor
  · intro tileId x y gs
    exact ⟨foldl_markAsDirty_painted gs _, foldl_markAsDirty_dirty_of_dirty gs _ rfl⟩
  · intro t gs h
    exact foldl_markAsDirty_dirty_iff gs t h

/-- Counterexample to C4 as stated: from a fresh tile, the single call
`markAsDirty(0)` leaves `isDirty()` true although the maximum
generation seen (0) does not exceed `m_lastPaintedPicture` (0): the
constructor already set the dirty flag and `markAsDirty` never clears
it. -/
theorem markAsDirty_sequences_counterexample :
    BaseTile.isDirty (List.foldl BaseTile.markAsDirty (newBaseTile 0 0 0) [(0 : Int)]) = true ∧
    (List.foldl BaseTile.markAsDirty (newBaseTile 0 0 0) [(0 : Int)]).m_lastPaintedPicture = 0 ∧
    (List.foldl BaseTile.markAsDirty (newBaseTile 0 0 0) [(0 : Int)]).m_lastDirtyPicture = 0 := by
  decide

/-- Witness for C4 at a concrete input: from a clean tile,
markAsDirty(3) makes the tile dirty since 3 exceeds the painted
generation 0. -/
theorem markAsDirty_sequences_spec_witness :
    BaseTile.isDirty (List.foldl BaseTile.markAsDirty
      { newBaseTile 0 0 0 with m_dirty := false } [(3 : Int)]) = true := by
  exact (markAsDirty_sequences_spec.2 { newBaseTile 0 0 0 with m_dirty := false } [3] rfl).mpr
    ⟨3, List.mem_singleton.mpr rfl, by decide⟩

/-! ### Evolution of m_lastDirtyPicture (C9) -/

/-- Along a non-decreasing chain of `markAsDirty` generations the
stored `m_lastDirtyPicture` never decreases. -/
lemma foldl_markAsDirty_lastDirty_chain (gs : List Int) (t : BaseTile)
    (h : List.Chain' (fun a b : Int => a ≤ b) (t.m_lastDirtyPicture :: gs)) :
    t.m_lastDirtyPicture ≤ (List.foldl BaseTile.markAsDirty t gs).m_lastDirtyPicture := by
  induction gs generalizing t with
  | nil => exact le_refl _
  | cons g gs ih =>
    have h1 : t.m_lastDirtyPicture ≤ g := (List.chain'_cons.mp h).1
    have h2 := (List.chain'_cons.mp h).2
    rw [List.foldl_cons]
    refine le_trans h1 ?_
    have hrec := ih (BaseTile.markAsDirty t g)
      (by rw [markAsDirty_lastDirty]; exact h2)
    rw [markAsDirty_lastDirty] at hrec
    exact hrec

/-- Claim C9 (amended): `m_lastDirtyPicture` is written only by
`markAsDirty`, which overwrites it with its argument (last write
wins); consequently it can decrease when a lower generation arrives,
and it is non-decreasing exactly along runs whose `markAsDirty`
generations are non-decreasing. -/
theorem lastDirtyPicture_change_spec :
    (∀ (t : BaseTile) (op : Op),
      (step t op).m_lastDirtyPicture = t.m_lastDirtyPicture ∨
        ∃ g, op = Op.markAsDirty g ∧ (step t op).m_lastDirtyPicture = g) ∧
    (∀ (t : BaseTile) (gs : List Int),
      List.Chain' (fun a b : Int => a ≤ b) (t.m_lastDirtyPicture :: gs) →
      t.m_lastDirtyPicture ≤ (List.foldl BaseTile.markAsDirty t gs).m_lastDirtyPicture) := by
  constructor
  · intro t op
    cases op with
    | reserveTexture tex =>
      left
      show (BaseTile.reserveTexture t tex).m_lastDirtyPicture = t.m_lastDirtyPicture
      unfold BaseTile.reserveTexture
      split <;> rfl
    | removeTexture =>
      left
      rfl
    | setScale s =>
      left
      show (BaseTile.setScale t s).m_lastDirtyPicture = t.m_lastDirtyPicture
      unfold BaseTile.setScale
      split <;> rfl
    | markAsDirty g =>
      right
      exact ⟨g, rfl, markAsDirty_lastDirty t g⟩
    | paintBitmap env g =>
      left
      show (BaseTile.paintBitmap env t g).m_lastDirtyPicture = t.m_lastDirtyPicture
      rcases paintBitmap_cases env t g with heq | ⟨hd, heq⟩
      · rw [heq]
      · rw [heq]
        unfold BaseTile.paintCommit
        split <;> rfl
  · intro t gs h
    exact foldl_markAsDirty_lastDirty_chain gs t h

/-- Witness for C9 (amended) at a concrete input. -/
theorem lastDirtyPicture_change_spec_witness :
    (newBaseTile 0 0 0).m_lastDirtyPicture ≤
      (List.foldl BaseTile.markAsDirty (newBaseTile 0 0 0) [1, 2]).m_lastDirtyPicture := by
  exact lastDirtyPicture_change_spec.2 (newBaseTile 0 0 0) [1, 2]
    (by norm_num [newBaseTile, List.chain'_cons])

/-- Counterexample to C9 as stated: `markAsDirty(5)` then
`markAsDirty(3)` drives the stored `m_lastDirtyPicture` from 5 down to
3 — the field is overwritten unconditionally, not kept at its
maximum. -/
theorem lastDirtyPicture_monotone_counterexample :
    (run (newBaseTile 0 0 0) [Op.markAsDirty 5]).m_lastDirtyPicture = 5 ∧
    (run (newBaseTile 0 0 0) [Op.markAsDirty 5, Op.markAsDirty 3]).m_lastDirtyPicture = 3 ∧
    (3 : Int) < 5 := by
  decide

/-! ### Mid-paint invalidation (C2) -/

/-- Claim C2 (amended): when the snapshot shows a dirty tile with a
texture and the post-lock revalidation passes, `paintBitmap` records
the rasterizer's stamp `g` into `m_lastPaintedPicture` and clears the
dirty flag exactly when `g` is at least the `m_lastDirtyPicture` seen
at commit time; a concurrent `markAsDirty(gl)` with `gl > g` leaves
the tile dirty provided it is the last invalidation to land before
the commit (last write wins on the stored generation). -/
theorem paintBitmapMid_commit_spec (env : TexEnv) (t : BaseTile) (tex : Nat) (g : Int)
    (mid : List Int) (hd : t.m_dirty = true) (htex : t.m_texture = some tex)
    (hown : env.owner tex = some t.tileId) (hlvl : env.usedLevel tex ≤ 1) :
    (BaseTile.paintBitmapMid env t g mid).m_lastPaintedPicture = g ∧
    ((BaseTile.paintBitmapMid env t g mid).m_dirty = false ↔
      (List.foldl BaseTile.markAsDirty t mid).m_lastDirtyPicture ≤ g) ∧
    (∀ gl, mid.getLast? = some gl → g < gl →
      (BaseTile.paintBitmapMid env t g mid).m_dirty = true) := by
  have hnl : ¬ env.usedLevel tex > 1 := not_lt.mpr hlvl
  have hred : BaseTile.paintBitmapMid env t g mid =
      BaseTile.paintCommit (List.foldl BaseTile.markAsDirty t mid) g := by
    simp [BaseTile.paintBitmapMid, htex, hd, hown, hnl]
  have hdm : (List.foldl BaseTile.markAsDirty t mid).m_dirty = true :=
    foldl_markAsDirty_dirty_of_dirty mid t hd
  rw [hred]
  unfold BaseTile.paintCommit
  refine ⟨?_, ?_, ?_⟩
  · split <;> rfl
  · split
    · rename_i hle
      simp [hle]
    · rename_i hnle
      simp [hdm, hnle]
  · intro gl hgl hglt
    have hlast := foldl_markAsDirty_getLast mid gl hgl t
    split
    · rename_i hle
      rw [hlast] at hle
      exact absurd hglt (not_lt.mpr hle)
    · exact hdm

/-- Witness for C2 (amended) at a concrete input: a lone mid-paint
markAsDirty(7) trumps the painted stamp 5 and the tile stays dirty. -/
theorem paintBitmapMid_commit_spec_witness :
    (BaseTile.paintBitmapMid ⟨fun _ => some 0, fun _ => 0, fun _ => some 0⟩
      { newBaseTile 0 0 0 with m_texture := some 0 } 5 [7]).m_dirty = true := by
  exact (paintBitmapMid_commit_spec ⟨fun _ => some 0, fun _ => 0, fun _ => some 0⟩
    { newBaseTile 0 0 0 with m_texture := some 0 } 0 5 [7] rfl rfl rfl (by decide)).2.2
    7 rfl (by decide)

/-- Counterexample to C2 as stated: all the claim's preconditions
hold, a `markAsDirty(7)` with 7 > 5 lands before the final commit,
yet a later `markAsDirty(2)` overwrites `m_lastDirtyPicture`, so the
commit sees 5 >= 2 and clears the dirty flag. -/
theorem paintBitmapMid_counterexample :
    ({ newBaseTile 0 0 0 with m_texture := some 0 } : BaseTile).m_dirty = true ∧
    (⟨fun _ => some 0, fun _ => 0, fun _ => some 0⟩ : TexEnv).owner 0 =
      some ({ newBaseTile 0 0 0 with m_texture := some 0 } : BaseTile).tileId ∧
    (⟨fun _ => some 0, fun _ => 0, fun _ => some 0⟩ : TexEnv).usedLevel 0 ≤ 1 ∧
    (7 : Int) ∈ [(7 : Int), 2] ∧ (5 : Int) < 7 ∧
    (BaseTile.paintBitmapMid ⟨fun _ => some 0, fun _ => 0, fun _ => some 0⟩
      { newBaseTile 0 0 0 with m_texture := some 0 } 5 [7, 2]).m_dirty = false := by
  decide
